import Mathlib

/-!
# ControlFin transaction ledger and aggregation engine: verification

Shallow embedding of the transaction CRUD handlers, month filter, top-level
sort, category deletion guard (all from `src/App.tsx`) and of the chart-data
aggregation (`processChartData`, whose implementation file
`src/utils/helpers.ts` is not part of the sources; it is modelled from the
spec).  JS numbers holding monetary amounts and comparator results are
modelled as exact rationals `ℚ`; the claims proved here only involve
summations and sign tests that the source performs identically on both
representations.

Modelling conventions, used throughout:
* `subItems?: Transaction[]` is modelled as a plain `List Tx`, with `[]`
  standing for an absent list.  Every use site in the source treats
  `undefined` and `[]` identically (`t.subItems?.some(..)`,
  `t.subItems && t.subItems.length > 0`, `[...(t.subItems || []), x]`,
  and `if (t.subItems)` followed by a length comparison that is vacuous
  on `[]`), so the two are observationally equal.
* optional strings (`parentId?`, `notes?`) are `Option String`; JS
  truthiness of such a value (`if (transactionData.parentId)`,
  `!t.parentId`) is `strTruthy`: `none` and `some ""` are falsy.
* `Array.prototype.sort(cmp)` (guaranteed stable and, for a consistent
  comparator, sorted by `cmp`) is modelled by the stable structural sort
  `List.insertionSort (fun a b => cmp a b ≤ 0)`: for a consistent
  comparator the stable sorted permutation of a list is unique, so any
  stable sorting algorithm denotes the same function.
-/

/-- `TransactionType` from `src/types.ts`. -/
inductive TxType : Type where
  | INCOME : TxType
  | EXPENSE : TxType
deriving DecidableEq, Repr

/-- `TransactionPriority` from `src/types.ts`. -/
inductive TxPriority : Type where
  | LOW : TxPriority
  | MEDIUM : TxPriority
  | HIGH : TxPriority
deriving DecidableEq, Repr

/-- `Transaction` from `src/types.ts`.  `amount: number` is modelled as `ℚ`;
`subItems?: Transaction[]` as a plain list (`[]` = absent, see module
docstring); `date` keeps its ISO-string representation. -/
inductive Tx : Type where
  | mk (id : String) (description : String) (amount : ℚ) (date : String)
      (type : TxType) (category : String) (parentId : Option String)
      (subItems : List Tx) (notes : Option String)
      (priority : Option TxPriority) : Tx

def Tx.id : Tx → String
  | .mk i _ _ _ _ _ _ _ _ _ => i

def Tx.description : Tx → String
  | .mk _ d _ _ _ _ _ _ _ _ => d

def Tx.amount : Tx → ℚ
  | .mk _ _ a _ _ _ _ _ _ _ => a

def Tx.date : Tx → String
  | .mk _ _ _ dt _ _ _ _ _ _ => dt

def Tx.type : Tx → TxType
  | .mk _ _ _ _ ty _ _ _ _ _ => ty

def Tx.category : Tx → String
  | .mk _ _ _ _ _ c _ _ _ _ => c

def Tx.parentId : Tx → Option String
  | .mk _ _ _ _ _ _ p _ _ _ => p

def Tx.subItems : Tx → List Tx
  | .mk _ _ _ _ _ _ _ si _ _ => si

def Tx.notes : Tx → Option String
  | .mk _ _ _ _ _ _ _ _ n _ => n

def Tx.priority : Tx → Option TxPriority
  | .mk _ _ _ _ _ _ _ _ _ pr => pr

/-- `{ ...t, amount: a }`. -/
def Tx.setAmount : Tx → ℚ → Tx
  | .mk i d _ dt ty c p si n pr, a => .mk i d a dt ty c p si n pr

/-- `{ ...t, subItems: si }`. -/
def Tx.setSubItems : Tx → List Tx → Tx
  | .mk i d a dt ty c p _ n pr, si => .mk i d a dt ty c p si n pr

/-- `{ ...t, subItems: si, amount: a }`. -/
def Tx.setSubItemsAmount : Tx → List Tx → ℚ → Tx
  | .mk i d _ dt ty c p _ n pr, si, a => .mk i d a dt ty c p si n pr

@[simp] theorem Tx.id_mk (i d : String) (a : ℚ) (dt : String) (ty : TxType)
    (c : String) (p : Option String) (si : List Tx) (n : Option String)
    (pr : Option TxPriority) : (Tx.mk i d a dt ty c p si n pr).id = i := rfl

@[simp] theorem Tx.amount_mk (i d : String) (a : ℚ) (dt : String) (ty : TxType)
    (c : String) (p : Option String) (si : List Tx) (n : Option String)
    (pr : Option TxPriority) : (Tx.mk i d a dt ty c p si n pr).amount = a := rfl

@[simp] theorem Tx.date_mk (i d : String) (a : ℚ) (dt : String) (ty : TxType)
    (c : String) (p : Option String) (si : List Tx) (n : Option String)
    (pr : Option TxPriority) : (Tx.mk i d a dt ty c p si n pr).date = dt := rfl

@[simp] theorem Tx.type_mk (i d : String) (a : ℚ) (dt : String) (ty : TxType)
    (c : String) (p : Option String) (si : List Tx) (n : Option String)
    (pr : Option TxPriority) : (Tx.mk i d a dt ty c p si n pr).type = ty := rfl

@[simp] theorem Tx.category_mk (i d : String) (a : ℚ) (dt : String) (ty : TxType)
    (c : String) (p : Option String) (si : List Tx) (n : Option String)
    (pr : Option TxPriority) : (Tx.mk i d a dt ty c p si n pr).category = c := rfl

@[simp] theorem Tx.parentId_mk (i d : String) (a : ℚ) (dt : String) (ty : TxType)
    (c : String) (p : Option String) (si : List Tx) (n : Option String)
    (pr : Option TxPriority) : (Tx.mk i d a dt ty c p si n pr).parentId = p := rfl

@[simp] theorem Tx.subItems_mk (i d : String) (a : ℚ) (dt : String) (ty : TxType)
    (c : String) (p : Option String) (si : List Tx) (n : Option String)
    (pr : Option TxPriority) : (Tx.mk i d a dt ty c p si n pr).subItems = si := rfl

@[simp] theorem Tx.priority_mk (i d : String) (a : ℚ) (dt : String) (ty : TxType)
    (c : String) (p : Option String) (si : List Tx) (n : Option String)
    (pr : Option TxPriority) : (Tx.mk i d a dt ty c p si n pr).priority = pr := rfl

@[simp] theorem Tx.id_setAmount (t : Tx) (a : ℚ) : (t.setAmount a).id = t.id := by
  cases t; rfl

@[simp] theorem Tx.amount_setAmount (t : Tx) (a : ℚ) : (t.setAmount a).amount = a := by
  cases t; rfl

@[simp] theorem Tx.parentId_setAmount (t : Tx) (a : ℚ) :
    (t.setAmount a).parentId = t.parentId := by
  cases t; rfl

@[simp] theorem Tx.subItems_setAmount (t : Tx) (a : ℚ) :
    (t.setAmount a).subItems = t.subItems := by
  cases t; rfl

@[simp] theorem Tx.setAmount_self (t : Tx) : t.setAmount t.amount = t := by
  cases t; rfl

@[simp] theorem Tx.id_setSubItems (t : Tx) (si : List Tx) :
    (t.setSubItems si).id = t.id := by
  cases t; rfl

@[simp] theorem Tx.parentId_setSubItems (t : Tx) (si : List Tx) :
    (t.setSubItems si).parentId = t.parentId := by
  cases t; rfl

@[simp] theorem Tx.subItems_setSubItems (t : Tx) (si : List Tx) :
    (t.setSubItems si).subItems = si := by
  cases t; rfl

@[simp] theorem Tx.id_setSubItemsAmount (t : Tx) (si : List Tx) (a : ℚ) :
    (t.setSubItemsAmount si a).id = t.id := by
  cases t; rfl

@[simp] theorem Tx.amount_setSubItemsAmount (t : Tx) (si : List Tx) (a : ℚ) :
    (t.setSubItemsAmount si a).amount = a := by
  cases t; rfl

@[simp] theorem Tx.parentId_setSubItemsAmount (t : Tx) (si : List Tx) (a : ℚ) :
    (t.setSubItemsAmount si a).parentId = t.parentId := by
  cases t; rfl

@[simp] theorem Tx.subItems_setSubItemsAmount (t : Tx) (si : List Tx) (a : ℚ) :
    (t.setSubItemsAmount si a).subItems = si := by
  cases t; rfl

/-- JS truthiness of an optional string: `undefined` and `""` are falsy. -/
def strTruthy : Option String → Bool
  | none => false
  | some s => !s.isEmpty

/-- The argument of `handleSaveTransaction`:
`Omit<Transaction, 'id' | 'subItems'>`.  Its only caller
(`TransactionModal.handleSubmit`, `src/App.tsx` lines 415-430) always passes
an object literal carrying every one of these properties, so the JS spread
`{ ...t, ...transactionData }` overwrites exactly these eight fields. -/
structure TxPayload : Type where
  description : String
  amount : ℚ
  date : String
  type : TxType
  category : String
  parentId : Option String
  notes : Option String
  priority : Option TxPriority

/-- `{ ...t, ...transactionData }` (`src/App.tsx` lines 1396 and 1401):
keeps `id` and `subItems`, replaces every payload field. -/
def Tx.applyPayload : Tx → TxPayload → Tx
  | .mk i _ _ _ _ _ _ si _ _, td =>
      .mk i td.description td.amount td.date td.type td.category td.parentId
        si td.notes td.priority

/-- `{ ...transactionData, id: newId }` (`src/App.tsx` lines 1407-1410):
the fresh record created by the create path; `subItems` is absent (= `[]`).
The generated id `tx_${Date.now()}_${Math.random()}` is an external source of
nondeterminism and is passed in as `newId`. -/
def TxPayload.toTx (td : TxPayload) (newId : String) : Tx :=
  .mk newId td.description td.amount td.date td.type td.category td.parentId
    [] td.notes td.priority

/-- `subItems.reduce((sum, item) => sum + item.amount, 0)`
(`src/App.tsx` lines 1425 and 1458). -/
def sumAmounts (l : List Tx) : ℚ :=
  l.foldl (fun sum item => sum + item.amount) 0

/-- The Hierarchy Invariant Enforcer pass run at the end of
`handleSaveTransaction` (`src/App.tsx` lines 1423-1429):
```
newTransactions = newTransactions.map(t => {
    if (t.subItems && t.subItems.length > 0) {
        const newAmount = t.subItems.reduce((sum, item) => sum + item.amount, 0);
        return { ...t, amount: newAmount };
    }
    return t;
});
``` -/
def enforceHierarchy (ts : List Tx) : List Tx :=
  ts.map (fun t =>
    if 0 < t.subItems.length then t.setAmount (sumAmounts t.subItems) else t)

/-- Body of the update-path `map` of `handleSaveTransaction`
(`src/App.tsx` lines 1394-1405): replace the fields of the transaction with
id `eid`, whether it sits at top level or inside some `subItems` list. -/
def updateTx (eid : String) (td : TxPayload) (t : Tx) : Tx :=
  if t.id == eid then t.applyPayload td
  else if t.subItems.any (fun st => st.id == eid) then
    t.setSubItems (t.subItems.map (fun st =>
      if st.id == eid then st.applyPayload td else st))
  else t

/-- `handleSaveTransaction` (`src/App.tsx` lines 1389-1435), restricted to its
effect on the `transactions` field of the state (the handler rewrites only
that field of `UserData`).  `editingTransaction` is the component state
deciding between the update and the create path; `newId` stands for the
generated id.  The create path inserts the new record under the transaction
whose `id` equals the payload's `parentId` when that `parentId` is truthy
(`t.id === transactionData.parentId`, here `some t.id == td.parentId`),
and pushes it at top level otherwise; both paths end with the
`enforceHierarchy` pass. -/
def handleSaveTransaction (editingTransaction : Option Tx) (newId : String)
    (td : TxPayload) (ts : List Tx) : List Tx :=
  enforceHierarchy
    (match editingTransaction with
     | some e => ts.map (updateTx e.id td)
     | none =>
        if strTruthy td.parentId then
          ts.map (fun t =>
            if some t.id == td.parentId then
              t.setSubItems (t.subItems ++ [td.toTx newId])
            else t)
        else ts ++ [td.toTx newId])

/-- `confirmDeleteTransaction` (`src/App.tsx` lines 1448-1470), restricted to
its effect on the `transactions` field, with `delId` the (truthy)
`transactionToDelete` state: drop the top-level records with that id, then
drop it from every `subItems` list, re-deriving the parent's `amount`
whenever its `subItems` list actually shrank.  The source's `if (t.subItems)`
guard is vacuous in the `[]`-for-absent model: an empty list never shrinks.
`deleteFromSubItems` is the body of the `map` (`src/App.tsx` lines
1454-1463), with the source's `filteredSubItems` constant inlined. -/
def deleteFromSubItems (delId : String) (t : Tx) : Tx :=
  if (t.subItems.filter (fun st => st.id != delId)).length < t.subItems.length then
    t.setSubItemsAmount (t.subItems.filter (fun st => st.id != delId))
      (sumAmounts (t.subItems.filter (fun st => st.id != delId)))
  else t

def confirmDeleteTransaction (delId : String) (ts : List Tx) : List Tx :=
  (ts.filter (fun t => t.id != delId)).map (deleteFromSubItems delId)

/-- `Category` from `src/types.ts`. -/
structure Category : Type where
  id : String
  name : String
  icon : String
deriving DecidableEq, Repr

/-- The two `UserData` fields (`src/types.ts`) read or written by the
modelled handlers; `currency`, `chatHistory` and `theme` are never touched
by them and are omitted. -/
structure UserDataM : Type where
  transactions : List Tx
  categories : List Category

/-- `handleDeleteCategory` (`src/App.tsx` lines 1486-1495): refuse (return
the previous snapshot) when some transaction of the top-level list has
`category` equal to the name of the category with id `categoryId`
(`prev.transactions.some(t => prev.categories.find(c => c.id === categoryId)?.name === t.category)`;
`undefined?.name === t.category` is `false`); otherwise remove that
category. -/
def handleDeleteCategory (categoryId : String) (prev : UserDataM) : UserDataM :=
  if prev.transactions.any (fun t =>
      match prev.categories.find? (fun c => c.id == categoryId) with
      | some c => c.name == t.category
      | none => false) then
    prev
  else
    { prev with categories := prev.categories.filter (fun c => c.id != categoryId) }

/-- `filteredTransactions` (`src/App.tsx` lines 640-645 in `TransactionsPage`
and, identically, lines 504-509 in `Dashboard`); the spec calls it
`filterByMonth`:
```
if (selectedMonth === 'all') { return transactions; }
return transactions.filter(t => t.date.startsWith(selectedMonth));
``` -/
def filteredTransactions (selectedMonth : String) (transactions : List Tx) :
    List Tx :=
  if selectedMonth == "all" then transactions
  else transactions.filter (fun t => t.date.startsWith selectedMonth)

/-- The `priorityOrder` record of `sortedParentTransactions`
(`src/App.tsx` lines 649-653): HIGH 3, MEDIUM 2, LOW 1. -/
def priorityOrder : TxPriority → ℚ
  | .HIGH => 3
  | .MEDIUM => 2
  | .LOW => 1

/-- `priorityOrder[a.priority || TransactionPriority.MEDIUM] ?? 0`
(`src/App.tsx` lines 658-659): a missing priority falls back to MEDIUM; the
`?? 0` alternative is unreachable because `priorityOrder` is total on the
three priorities. -/
def priorityWeight (t : Tx) : ℚ :=
  priorityOrder (t.priority.getD .MEDIUM)

/-- The comparator closed over `sortBy` that `sortedParentTransactions`
passes to `Array.prototype.sort` (`src/App.tsx` lines 655-671).  `getTime`
stands for the external `new Date(s).getTime()` collaborator used by the two
date branches; the unlisted keys (among them the default `'date-desc'`) fall
through to the date-descending comparison. -/
def txCmp (getTime : String → ℚ) (sortBy : String) (a b : Tx) : ℚ :=
  if sortBy == "priority-desc" then priorityWeight b - priorityWeight a
  else if sortBy == "amount-desc" then b.amount - a.amount
  else if sortBy == "amount-asc" then a.amount - b.amount
  else if sortBy == "date-asc" then getTime a.date - getTime b.date
  else getTime b.date - getTime a.date

/-- `sortedParentTransactions` (`src/App.tsx` lines 647-672): keep only the
transactions with a falsy `parentId`
(`filteredTransactions.filter(t => !t.parentId)`) and sort the copy with the
`txCmp` comparator.  `[...parentTransactions].sort(cmp)` is a stable sort
ordered by the comparator; `List.insertionSort (fun a b => cmp a b ≤ 0)`
denotes the same function (see module docstring). -/
def sortedParentTransactions (getTime : String → ℚ) (sortBy : String)
    (ts : List Tx) : List Tx :=
  List.insertionSort (fun a b => txCmp getTime sortBy a b ≤ 0)
    (ts.filter (fun t => !strTruthy t.parentId))

/-- Modelled from the spec: the month bucket, "the `YYYY-MM` prefix of a
transaction's date" — "month-bucketing uses the first 7 characters of its ISO
form" (spec sections 3 and 4.3).  Needed because `processChartData` lives in
`src/utils/helpers.ts`, which is not among the available sources. -/
def monthBucket (t : Tx) : String :=
  t.date.take 7

/-- Modelled from the spec: the transactions the income-vs-expense series
aggregates, the "top-level, non-child transactions" (spec section 4.3). -/
def chartTopLevel (ts : List Tx) : List Tx :=
  ts.filter (fun t => !strTruthy t.parentId)

/-- Modelled from the spec: the month buckets observed among the aggregated
transactions, each once, in chronological order ("emit one row per observed
month, in chronological order"; for `YYYY-MM` strings chronological order is
the lexicographic string order).  Needed because `processChartData` lives in
`src/utils/helpers.ts`, which is not among the available sources. -/
def observedMonths (ts : List Tx) : List String :=
  List.insertionSort (fun a b : String => a ≤ b)
    ((chartTopLevel ts).map monthBucket).dedup

/-- One row of the income-vs-expense series of `processChartData`:
`{ name: human month label, Receita: income sum, Despesa: expense sum }`
(spec section 4.3). -/
structure ChartRow : Type where
  name : String
  Receita : ℚ
  Despesa : ℚ

/-- Modelled from the spec: the income-vs-expense series of
`processChartData`, whose implementation (`src/utils/helpers.ts`) is not
among the available sources: "group top-level, non-child transactions by
month bucket (`YYYY-MM` truncated from date), sum `amount` separately for
`type=INCOME` and `type=EXPENSE` per bucket, emit one row per observed
month, in chronological order" (spec section 4.3).  `label` stands for the
external `monthKeyToLabel` collaborator populating the `name` field. -/
def incomeVsExpenseData (label : String → String) (ts : List Tx) :
    List ChartRow :=
  (observedMonths ts).map (fun m =>
    { name := label m
      Receita := sumAmounts ((chartTopLevel ts).filter
        (fun t => monthBucket t == m && t.type == TxType.INCOME))
      Despesa := sumAmounts ((chartTopLevel ts).filter
        (fun t => monthBucket t == m && t.type == TxType.EXPENSE)) })

/-- The sum invariant (spec section 8): every record of the list whose
`subItems` list is non-empty has `amount` equal to the sum of its sub-items'
amounts. -/
def SumInv (ts : List Tx) : Prop :=
  ∀ t ∈ ts, 0 < t.subItems.length → t.amount = sumAmounts t.subItems

/-- The no-orphan / depth invariant (spec sections 3 and 8): no record of the
list both carries a non-empty `subItems` list and a defined `parentId`, and
no nested sub-item carries sub-items of its own. -/
def NoOrphan (ts : List Tx) : Prop :=
  ∀ t ∈ ts, (0 < t.subItems.length → t.parentId = none) ∧
    ∀ s ∈ t.subItems, s.subItems = []

/-- The id `tid` occurs nowhere in the list, neither at top level nor inside
any `subItems` list (the "not present anywhere in the set, including nested"
situation of spec section 7). -/
def idAbsent (tid : String) (ts : List Tx) : Prop :=
  ∀ t ∈ ts, t.id ≠ tid ∧ ∀ s ∈ t.subItems, s.id ≠ tid

theorem sumInv_enforceHierarchy (ts : List Tx) : SumInv (enforceHierarchy ts) := by
  intro t ht hlen
  obtain ⟨u, -, rfl⟩ := List.mem_map.mp ht
  by_cases h : 0 < u.subItems.length
  · simp [h]
  · rw [if_neg h] at hlen
    exact absurd hlen h

theorem enforceHierarchy_eq_self {ts : List Tx} (h : SumInv ts) :
    enforceHierarchy ts = ts := by
  unfold enforceHierarchy
  have hid : ∀ t ∈ ts,
      (if 0 < t.subItems.length then t.setAmount (sumAmounts t.subItems) else t) = t := by
    intro t ht
    by_cases hlen : 0 < t.subItems.length
    · rw [if_pos hlen, ← h t ht hlen, Tx.setAmount_self]
    · rw [if_neg hlen]
  rw [List.map_congr_left hid]
  simp

theorem deleteFromSubItems_id (delId : String) (t : Tx) :
    (deleteFromSubItems delId t).id = t.id := by
  unfold deleteFromSubItems
  split <;> simp

theorem deleteFromSubItems_parentId (delId : String) (t : Tx) :
    (deleteFromSubItems delId t).parentId = t.parentId := by
  unfold deleteFromSubItems
  split <;> simp

theorem deleteFromSubItems_subItems_mem (delId : String) (t : Tx) :
    ∀ u ∈ (deleteFromSubItems delId t).subItems, u ∈ t.subItems := by
  unfold deleteFromSubItems
  split
  · intro u hu
    simp only [Tx.subItems_setSubItemsAmount] at hu
    exact List.mem_of_mem_filter hu
  · intro u hu
    exact hu

theorem deleteFromSubItems_local (delId : String) (t : Tx)
    (h : 0 < t.subItems.length → t.amount = sumAmounts t.subItems) :
    0 < (deleteFromSubItems delId t).subItems.length →
      (deleteFromSubItems delId t).amount =
        sumAmounts (deleteFromSubItems delId t).subItems := by
  unfold deleteFromSubItems
  split
  · intro _
    simp
  · exact h

/-- A payload used to instantiate witnesses on concrete inputs. -/
def tdSample : TxPayload :=
  ⟨"desc", 10, "2024-02-03T00:00:00.000Z", .EXPENSE, "Food", none, none, none⟩

/-- A sub-item of `parentBad` (amount 5). -/
def subBad : Tx :=
  .mk "s1" "sub" 5 "2024-01-02T00:00:00.000Z" .EXPENSE "Food" (some "p1") [] none none

/-- A parent whose stored amount 99 disagrees with its sub-items' sum 5. -/
def parentBad : Tx :=
  .mk "p1" "parent" 99 "2024-01-01T00:00:00.000Z" .EXPENSE "Food" none [subBad] none none

/-- A transaction list violating the sum invariant. -/
def badList : List Tx := [parentBad]

/-- Sub-items of `parentGood` (amounts 20 and 35.5, scenario B of the spec). -/
def subG1 : Tx :=
  .mk "s1" "Arroz" 20 "2024-03-05T00:00:00.000Z" .EXPENSE "Supermercado" (some "p1") [] none none

def subG2 : Tx :=
  .mk "s2" "Carne" (35.5 : ℚ) "2024-03-05T00:00:00.000Z" .EXPENSE "Supermercado" (some "p1") [] none none

/-- A parent whose amount 55.5 equals the sum of its sub-items. -/
def parentGood : Tx :=
  .mk "p1" "Compras" (55.5 : ℚ) "2024-03-05T00:00:00.000Z" .EXPENSE "Supermercado" none
    [subG1, subG2] none none

/-- A transaction list satisfying the sum invariant. -/
def goodList : List Tx := [parentGood]

/-- C1 (amended): after `handleSaveTransaction` (create or update path) every
transaction of the resulting list with a non-empty `subItems` list has
`amount` equal to the sum of its sub-items' amounts, for every input list;
after `confirmDeleteTransaction` the same holds provided the input list
already satisfied it. -/
theorem sumInv_after_mutations :
    (∀ (editing : Option Tx) (newId : String) (td : TxPayload) (ts : List Tx),
      SumInv (handleSaveTransaction editing newId td ts)) ∧
    (∀ (delId : String) (ts : List Tx), SumInv ts →
      SumInv (confirmDeleteTransaction delId ts)) := by
  constructor
  · intro editing newId td ts
    unfold handleSaveTransaction
    exact sumInv_enforceHierarchy _
  · intro delId ts h t ht
    obtain ⟨u, hu, rfl⟩ := List.mem_map.mp ht
    exact deleteFromSubItems_local delId u (h u (List.mem_of_mem_filter hu))

/-- C1 witness: the two parts of `sumInv_after_mutations` applied at concrete
inputs (a create on an inconsistent list; a sub-item deletion on a consistent
one). -/
theorem sumInv_goodList : SumInv goodList := by
  intro t ht hlen
  rw [goodList, List.mem_singleton] at ht
  subst ht
  norm_num [parentGood, subG1, subG2, sumAmounts]

theorem sumInv_after_mutations_witness :
    SumInv (handleSaveTransaction none "n1" tdSample badList) ∧
    SumInv (confirmDeleteTransaction "s1" goodList) :=
  ⟨sumInv_after_mutations.1 none "n1" tdSample badList,
   sumInv_after_mutations.2 "s1" goodList sumInv_goodList⟩

/-- C1 counterexample: the claim quantifies over every transaction list, but
`confirmDeleteTransaction` does not restore the sum invariant on a list that
violates it: deleting the absent id `"zzz"` from `badList` (parent amount 99,
sub-item sum 5) leaves the violation in place. -/
theorem sumInv_delete_counterexample :
    ¬ SumInv (confirmDeleteTransaction "zzz" badList) := by
  intro h
  have e : confirmDeleteTransaction "zzz" badList = badList := rfl
  rw [e] at h
  have h1 := h parentBad (List.mem_singleton_self parentBad) (by simp [parentBad])
  norm_num [parentBad, subBad, sumAmounts] at h1

/-- C8: the Hierarchy Invariant Enforcer is idempotent: on a list where every
transaction with a non-empty `subItems` list already has `amount` equal to
its sub-items' sum it returns an identical list (and hence applying it twice
is the same as applying it once). -/
theorem enforceHierarchy_idempotent :
    (∀ ts : List Tx, SumInv ts → enforceHierarchy ts = ts) ∧
    (∀ ts : List Tx, enforceHierarchy (enforceHierarchy ts) = enforceHierarchy ts) :=
  ⟨fun _ h => enforceHierarchy_eq_self h,
   fun ts => enforceHierarchy_eq_self (sumInv_enforceHierarchy ts)⟩

/-- C8 witness: `enforceHierarchy` applied to the concrete consistent list
`goodList` (parent 55.5 = 20 + 35.5) returns it unchanged. -/
theorem enforceHierarchy_idempotent_witness :
    enforceHierarchy goodList = goodList :=
  enforceHierarchy_idempotent.1 goodList sumInv_goodList

/-- A standalone income on 2024-01-05 (scenario A of the spec). -/
def incomeJan : Tx :=
  .mk "i1" "Pagamento" 1000 "2024-01-05T00:00:00.000Z" .INCOME "Freelance" none [] none none

/-- A standalone expense on 2024-01-10 (scenario A of the spec). -/
def expenseJan : Tx :=
  .mk "e1" "Mercado" 300 "2024-01-10T00:00:00.000Z" .EXPENSE "Supermercado" none [] none none

/-- A list mixing January and March transactions. -/
def demoMix : List Tx := [incomeJan, expenseJan, parentGood]

/-- C3: month filtering with `"all"` returns the list unchanged; with any
other month key it returns exactly the in-order sublist of the records whose
own `date` string starts with the key. -/
theorem filteredTransactions_spec (m : String) (ts : List Tx) :
    (m = "all" → filteredTransactions m ts = ts) ∧
    (m ≠ "all" →
      filteredTransactions m ts = ts.filter (fun t => t.date.startsWith m) ∧
      List.Sublist (filteredTransactions m ts) ts ∧
      ∀ t, t ∈ filteredTransactions m ts ↔ t ∈ ts ∧ t.date.startsWith m) := by
  constructor
  · intro h
    subst h
    simp [filteredTransactions]
  · intro h
    have e : filteredTransactions m ts = ts.filter (fun t => t.date.startsWith m) := by
      simp [filteredTransactions, h]
    refine ⟨e, ?_, ?_⟩
    · rw [e]
      exact List.filter_sublist ts
    · intro t
      rw [e]
      simp [List.mem_filter]

/-- C3 witness: the two branches of `filteredTransactions_spec` at the
concrete list `demoMix`. -/
theorem filteredTransactions_spec_witness :
    filteredTransactions "all" demoMix = demoMix ∧
    ∀ t, t ∈ filteredTransactions "2024-03" demoMix ↔
      t ∈ demoMix ∧ t.date.startsWith "2024-03" :=
  ⟨(filteredTransactions_spec "all" demoMix).1 rfl,
   ((filteredTransactions_spec "2024-03" demoMix).2 (by decide)).2.2⟩

theorem confirmDelete_absent {delId : String} {ts : List Tx}
    (h : idAbsent delId ts) : confirmDeleteTransaction delId ts = ts := by
  unfold confirmDeleteTransaction
  have hf : ts.filter (fun t => t.id != delId) = ts :=
    List.filter_eq_self.mpr (fun t ht => by simp [(h t ht).1])
  rw [hf]
  have hid : ∀ t ∈ ts, deleteFromSubItems delId t = t := by
    intro t ht
    unfold deleteFromSubItems
    have hsub : t.subItems.filter (fun st => st.id != delId) = t.subItems :=
      List.filter_eq_self.mpr (fun s hs => by simp [(h t ht).2 s hs])
    rw [hsub]
    simp
  rw [List.map_congr_left hid]
  simp

theorem updateTx_absent {eid : String} {td : TxPayload} {ts : List Tx}
    (h : idAbsent eid ts) : ts.map (updateTx eid td) = ts := by
  have hid : ∀ t ∈ ts, updateTx eid td t = t := by
    intro t ht
    unfold updateTx
    have h1 : (t.id == eid) = false := beq_eq_false_iff_ne.mpr (h t ht).1
    have h2 : t.subItems.any (fun st => st.id == eid) = false := by
      rw [List.any_eq_false]
      intro s hs
      simp [(h t ht).2 s hs]
    rw [h1, h2]
    simp
  rw [List.map_congr_left hid]
  simp

/-- C7 (amended): deleting an id absent from the whole list (top level and
nested) is a strict no-op for every input list; editing an absent id leaves
the list unchanged provided the list already satisfies the sum invariant
(otherwise only the closing enforcer pass re-derives parent amounts — the
targeted record itself is still never changed).  Both are total functions:
no fatal fault. -/
theorem absent_id_noop :
    (∀ (delId : String) (ts : List Tx), idAbsent delId ts →
      confirmDeleteTransaction delId ts = ts) ∧
    (∀ (e : Tx) (newId : String) (td : TxPayload) (ts : List Tx),
      idAbsent e.id ts → SumInv ts →
      handleSaveTransaction (some e) newId td ts = ts) := by
  constructor
  · intro delId ts h
    exact confirmDelete_absent h
  · intro e newId td ts h hsum
    have e1 : handleSaveTransaction (some e) newId td ts =
        enforceHierarchy (ts.map (updateTx e.id td)) := rfl
    rw [e1, updateTx_absent h]
    exact enforceHierarchy_eq_self hsum

/-- A transaction whose id `"zzz"` occurs nowhere in `badList`/`goodList`. -/
def ghostTx : Tx :=
  .mk "zzz" "ghost" 1 "2024-01-01T00:00:00.000Z" .EXPENSE "Food" none [] none none

/-- C7 witness: deleting and editing the absent id `"zzz"` on the consistent
list `goodList` both return the list unchanged. -/
theorem absent_id_noop_witness :
    confirmDeleteTransaction "zzz" goodList = goodList ∧
    handleSaveTransaction (some ghostTx) "n1" tdSample goodList = goodList :=
  ⟨absent_id_noop.1 "zzz" goodList (by unfold idAbsent; decide),
   absent_id_noop.2 ghostTx "n1" tdSample goodList (by unfold idAbsent; decide)
     sumInv_goodList⟩

/-- C7 counterexample: the claim quantifies over every transaction list, but
editing an absent id through `handleSaveTransaction` runs the closing
enforcer pass, which rewrites the inconsistent parent of `badList`
(stored amount 99, sub-item sum 5), so the result differs from the input. -/
theorem absent_id_edit_counterexample :
    handleSaveTransaction (some ghostTx) "n1" tdSample badList ≠ badList := by
  intro hcontra
  have e1 : handleSaveTransaction (some ghostTx) "n1" tdSample badList =
      [parentBad.setAmount (sumAmounts [subBad])] := rfl
  rw [e1] at hcontra
  have h2 := congrArg (fun l => (l.headD ghostTx).amount) hcontra
  norm_num [badList, parentBad, subBad, sumAmounts] at h2

@[simp] theorem Tx.id_applyPayload (t : Tx) (td : TxPayload) :
    (t.applyPayload td).id = t.id := by
  cases t; rfl

@[simp] theorem Tx.parentId_applyPayload (t : Tx) (td : TxPayload) :
    (t.applyPayload td).parentId = td.parentId := by
  cases t; rfl

@[simp] theorem Tx.subItems_applyPayload (t : Tx) (td : TxPayload) :
    (t.applyPayload td).subItems = t.subItems := by
  cases t; rfl

@[simp] theorem TxPayload.id_toTx (td : TxPayload) (newId : String) :
    (td.toTx newId).id = newId := rfl

@[simp] theorem TxPayload.parentId_toTx (td : TxPayload) (newId : String) :
    (td.toTx newId).parentId = td.parentId := rfl

@[simp] theorem TxPayload.subItems_toTx (td : TxPayload) (newId : String) :
    (td.toTx newId).subItems = [] := rfl

theorem enforceHierarchy_mem {ts : List Tx} {t : Tx}
    (ht : t ∈ enforceHierarchy ts) :
    ∃ u ∈ ts, t.id = u.id ∧ t.parentId = u.parentId ∧ t.subItems = u.subItems := by
  obtain ⟨u, hu, rfl⟩ := List.mem_map.mp ht
  refine ⟨u, hu, ?_⟩
  by_cases h : 0 < u.subItems.length <;> simp [h]

theorem idAbsent_enforceHierarchy {x : String} {ts : List Tx}
    (h : idAbsent x ts) : idAbsent x (enforceHierarchy ts) := by
  intro t ht
  obtain ⟨u, hu, hid, -, hsub⟩ := enforceHierarchy_mem ht
  rw [hid, hsub]
  exact h u hu

/-- A payload whose truthy `parentId` `"nope"` matches no transaction id of
the concrete lists used in witnesses and counterexamples. -/
def tdOrphan : TxPayload :=
  ⟨"orphan", 7, "2024-02-03T00:00:00.000Z", .EXPENSE, "Food", some "nope", none, none⟩

/-- C10 (amended): when the create path receives a payload whose (truthy)
`parentId` equals no top-level transaction's id, the new record is silently
discarded — its id appears neither at top level nor inside any `subItems`
(assuming the fresh id was absent beforehand) — and the result equals the
input provided the input satisfies the sum invariant; in general only the
closing enforcer pass (amount re-derivation) is applied.  No error reaches
the caller. -/
theorem create_orphan_discarded (newId : String) (td : TxPayload) (ts : List Tx)
    (htruthy : strTruthy td.parentId = true)
    (hnoparent : ∀ t ∈ ts, some t.id ≠ td.parentId) :
    (SumInv ts → handleSaveTransaction none newId td ts = ts) ∧
    (idAbsent newId ts → idAbsent newId (handleSaveTransaction none newId td ts)) := by
  have e1 : handleSaveTransaction none newId td ts = enforceHierarchy ts := by
    have e2 : handleSaveTransaction none newId td ts =
        enforceHierarchy
          (if strTruthy td.parentId then
            ts.map (fun t =>
              if some t.id == td.parentId then
                t.setSubItems (t.subItems ++ [td.toTx newId])
              else t)
          else ts ++ [td.toTx newId]) := rfl
    rw [e2, if_pos htruthy]
    congr 1
    have hid : ∀ t ∈ ts,
        (if some t.id == td.parentId then
          t.setSubItems (t.subItems ++ [td.toTx newId])
        else t) = t := by
      intro t ht
      rw [if_neg]
      simp only [beq_iff_eq]
      exact hnoparent t ht
    rw [List.map_congr_left hid]
    simp
  constructor
  · intro hsum
    rw [e1]
    exact enforceHierarchy_eq_self hsum
  · intro habs
    rw [e1]
    exact idAbsent_enforceHierarchy habs

/-- C10 witness: `create_orphan_discarded` at the consistent concrete list
`goodList` and the orphan payload `tdOrphan`. -/
theorem create_orphan_discarded_witness :
    handleSaveTransaction none "n1" tdOrphan goodList = goodList ∧
    idAbsent "n1" (handleSaveTransaction none "n1" tdOrphan goodList) :=
  ⟨(create_orphan_discarded "n1" tdOrphan goodList rfl (by decide)).1 sumInv_goodList,
   (create_orphan_discarded "n1" tdOrphan goodList rfl (by decide)).2
     (by unfold idAbsent; decide)⟩

/-- C10 counterexample: the claim asserts the result equals the input for
every transaction list, but on the inconsistent `badList` (parent amount 99,
sub-item sum 5) the discarded create still runs the closing enforcer pass,
which rewrites the parent's amount. -/
theorem create_orphan_counterexample :
    handleSaveTransaction none "n1" tdOrphan badList ≠ badList := by
  intro hcontra
  have e1 : handleSaveTransaction none "n1" tdOrphan badList =
      [parentBad.setAmount (sumAmounts [subBad])] := rfl
  rw [e1] at hcontra
  have h2 := congrArg (fun l => (l.headD ghostTx).amount) hcontra
  norm_num [badList, parentBad, subBad, sumAmounts] at h2

theorem noOrphan_enforceHierarchy {ts : List Tx} (h : NoOrphan ts) :
    NoOrphan (enforceHierarchy ts) := by
  intro t ht
  obtain ⟨u, hu, -, hpid, hsub⟩ := enforceHierarchy_mem ht
  rw [hpid, hsub]
  exact h u hu

/-- C2 (amended): the no-orphan / depth-1 invariant is preserved by
`confirmDeleteTransaction` unconditionally, by `handleSaveTransaction`
updates whose payload carries no `parentId` whenever the target transaction
has a non-empty `subItems` list, and by `handleSaveTransaction` creates
whose parentId designates only transactions that themselves have no
`parentId`. -/
theorem noOrphan_preserved :
    (∀ (e : Tx) (newId : String) (td : TxPayload) (ts : List Tx),
      NoOrphan ts →
      (∀ t ∈ ts, t.id = e.id → 0 < t.subItems.length → td.parentId = none) →
      NoOrphan (handleSaveTransaction (some e) newId td ts)) ∧
    (∀ (newId : String) (td : TxPayload) (ts : List Tx),
      NoOrphan ts →
      (∀ t ∈ ts, some t.id = td.parentId → t.parentId = none) →
      NoOrphan (handleSaveTransaction none newId td ts)) ∧
    (∀ (delId : String) (ts : List Tx),
      NoOrphan ts → NoOrphan (confirmDeleteTransaction delId ts)) := by
  refine ⟨?_, ?_, ?_⟩
  · intro e newId td ts h hpayload
    have e1 : handleSaveTransaction (some e) newId td ts =
        enforceHierarchy (ts.map (updateTx e.id td)) := rfl
    rw [e1]
    apply noOrphan_enforceHierarchy
    intro t ht
    obtain ⟨u, hu, rfl⟩ := List.mem_map.mp ht
    unfold updateTx
    by_cases h1 : u.id = e.id
    · rw [if_pos (beq_iff_eq.mpr h1)]
      constructor
      · intro hlen
        rw [Tx.parentId_applyPayload]
        exact hpayload u hu h1 (by simpa using hlen)
      · intro s hs
        rw [Tx.subItems_applyPayload] at hs
        exact (h u hu).2 s hs
    · rw [if_neg (by simpa using h1)]
      by_cases h2 : u.subItems.any (fun st => st.id == e.id)
      · rw [if_pos h2]
        constructor
        · intro hlen
          rw [Tx.parentId_setSubItems]
          exact (h u hu).1 (by simpa using hlen)
        · intro s hs
          rw [Tx.subItems_setSubItems] at hs
          obtain ⟨v, hv, rfl⟩ := List.mem_map.mp hs
          by_cases h3 : v.id == e.id
          · rw [if_pos h3, Tx.subItems_applyPayload]
            exact (h u hu).2 v hv
          · rw [if_neg h3]
            exact (h u hu).2 v hv
      · rw [if_neg h2]
        exact h u hu
  · intro newId td ts h hparent
    unfold handleSaveTransaction
    apply noOrphan_enforceHierarchy
    by_cases htruthy : strTruthy td.parentId
    · rw [if_pos htruthy]
      intro t ht
      obtain ⟨u, hu, rfl⟩ := List.mem_map.mp ht
      by_cases h1 : some u.id == td.parentId
      · rw [if_pos h1]
        constructor
        · intro _
          rw [Tx.parentId_setSubItems]
          exact hparent u hu (by simpa using h1)
        · intro s hs
          rw [Tx.subItems_setSubItems] at hs
          rcases List.mem_append.mp hs with h2 | h2
          · exact (h u hu).2 s h2
          · rw [List.mem_singleton.mp h2]
            rfl
      · rw [if_neg h1]
        exact h u hu
    · rw [if_neg htruthy]
      intro t ht
      rcases List.mem_append.mp ht with h1 | h1
      · exact h t h1
      · rw [List.mem_singleton.mp h1]
        exact ⟨fun hlen => by simp at hlen, fun s hs => by simp at hs⟩
  · intro delId ts h t ht
    obtain ⟨u, hu, rfl⟩ := List.mem_map.mp ht
    have hu' := h u (List.mem_of_mem_filter hu)
    constructor
    · intro hlen
      unfold deleteFromSubItems at hlen ⊢
      split at hlen
      · rw [if_pos (by assumption), Tx.parentId_setSubItemsAmount]
        rename_i hc
        apply hu'.1
        rw [Tx.subItems_setSubItemsAmount] at hlen
        calc 0 < (u.subItems.filter (fun st => st.id != delId)).length := hlen
          _ ≤ u.subItems.length := List.length_filter_le _ _
      · rw [if_neg (by assumption)]
        exact hu'.1 hlen
    · intro s hs
      exact hu'.2 s (deleteFromSubItems_subItems_mem delId u s hs)

theorem noOrphan_goodList : NoOrphan goodList := by
  intro t ht
  rw [goodList, List.mem_singleton] at ht
  subst ht
  refine ⟨fun _ => rfl, ?_⟩
  intro s hs
  rw [parentGood, Tx.subItems_mk, List.mem_cons, List.mem_singleton] at hs
  rcases hs with rfl | rfl
  · rfl
  · rfl

/-- A payload carrying a (defined) `parentId` `"q9"`, used to re-parent a
transaction through the update path. -/
def tdReparent : TxPayload :=
  ⟨"edit", 50, "2024-03-06T00:00:00.000Z", .EXPENSE, "Supermercado", some "q9", none, none⟩

/-- A payload creating a sub-item under the parent `"p1"`. -/
def tdChild : TxPayload :=
  ⟨"Leite", 8, "2024-03-07T00:00:00.000Z", .EXPENSE, "Supermercado", some "p1", none, none⟩

/-- C2 counterexample: `goodList` satisfies the no-orphan invariant, yet a
single engine update that targets the parent `"p1"` with a payload whose
`parentId` is `"q9"` produces a transaction with both a non-empty `subItems`
list and a defined `parentId`. -/
theorem noOrphan_update_counterexample :
    NoOrphan goodList ∧
    ¬ NoOrphan (handleSaveTransaction (some parentGood) "n2" tdReparent goodList) := by
  refine ⟨noOrphan_goodList, ?_⟩
  intro h
  have e1 : handleSaveTransaction (some parentGood) "n2" tdReparent goodList =
      [(parentGood.applyPayload tdReparent).setAmount
        (sumAmounts (parentGood.applyPayload tdReparent).subItems)] := rfl
  rw [e1] at h
  have h1 := (h _ (List.mem_singleton_self _)).1
  rw [Tx.parentId_setAmount, Tx.parentId_applyPayload] at h1
  have h2 := h1 (by simp [parentGood])
  simp [tdReparent] at h2

/-- C2 witness: the three parts of `noOrphan_preserved` at concrete inputs:
an update of the parent with a `parentId`-free payload, the creation of a
sub-item under it, and the deletion of one of its sub-items. -/
theorem noOrphan_preserved_witness :
    NoOrphan (handleSaveTransaction (some parentGood) "n2" tdSample goodList) ∧
    NoOrphan (handleSaveTransaction none "n3" tdChild goodList) ∧
    NoOrphan (confirmDeleteTransaction "s1" goodList) :=
  ⟨noOrphan_preserved.1 parentGood "n2" tdSample goodList noOrphan_goodList
      (fun _ _ _ _ => rfl),
   noOrphan_preserved.2.1 "n3" tdChild goodList noOrphan_goodList (by decide),
   noOrphan_preserved.2.2 "s1" goodList noOrphan_goodList⟩

/-- The category `"Aluguel"`. -/
def catAluguel : Category := ⟨"c1", "Aluguel", "home"⟩

/-- The category `"Supermercado"`. -/
def catSuper : Category := ⟨"c2", "Supermercado", "cart"⟩

/-- A sub-item referencing category `"Aluguel"`. -/
def subRent : Tx :=
  .mk "s9" "Aluguel escritório" 900 "2024-04-01T00:00:00.000Z" .EXPENSE "Aluguel"
    (some "p9") [] none none

/-- A parent referencing category `"Outros"`, holding `subRent`. -/
def parentOther : Tx :=
  .mk "p9" "Despesas" 900 "2024-04-01T00:00:00.000Z" .EXPENSE "Outros" none
    [subRent] none none

/-- A state where only a nested sub-item references `"Aluguel"`. -/
def rentState : UserDataM := ⟨[parentOther], [catAluguel]⟩

/-- A state where a top-level transaction references `"Supermercado"`. -/
def superState : UserDataM := ⟨[expenseJan], [catSuper]⟩

/-- C5 (amended): deleting a category whose name is referenced by some
*top-level* transaction is refused — `handleDeleteCategory` returns the
prior snapshot unchanged.  (References coming only from sub-items nested
inside a parent's `subItems` do not block the deletion: the guard iterates
the top-level list only.) -/
theorem deleteCategory_refused_when_used (cid : String) (st : UserDataM)
    (c : Category) (hfind : st.categories.find? (fun c => c.id == cid) = some c)
    (t : Tx) (ht : t ∈ st.transactions) (href : t.category = c.name) :
    handleDeleteCategory cid st = st := by
  unfold handleDeleteCategory
  rw [if_pos]
  rw [List.any_eq_true]
  refine ⟨t, ht, ?_⟩
  rw [hfind]
  simp [href]

/-- C5 witness: deleting `"Supermercado"` (id `"c2"`) while the top-level
transaction `expenseJan` references it returns the snapshot unchanged. -/
theorem deleteCategory_refused_witness :
    handleDeleteCategory "c2" superState = superState :=
  deleteCategory_refused_when_used "c2" superState catSuper rfl expenseJan
    (List.mem_singleton_self expenseJan) rfl

/-- C5 counterexample: the claim includes references from nested sub-items,
but the guard of `handleDeleteCategory` scans only the top-level list:
in `rentState` the nested sub-item `subRent` references `"Aluguel"`, yet
deleting the category `"c1"` (named `"Aluguel"`) succeeds and empties the
category list instead of being refused. -/
theorem deleteCategory_nested_counterexample :
    parentOther ∈ rentState.transactions ∧
    subRent ∈ parentOther.subItems ∧
    subRent.category = catAluguel.name ∧
    catAluguel ∈ rentState.categories ∧
    (handleDeleteCategory "c1" rentState).categories = [] :=
  ⟨List.mem_singleton_self parentOther, List.mem_singleton_self subRent, rfl,
   List.mem_singleton_self catAluguel, rfl⟩

/-- C6: deleting (by id) a top-level transaction `X` that has sub-items
removes `X` together with all of its sub-items: provided ids are unique —
no transaction other than `X` (top level or nested) reuses `X`'s id or one
of its sub-items' ids — no record of the result, at top level or nested,
carries `X`'s id or any of its sub-items' ids. -/
theorem delete_parent_discards_subItems (ts : List Tx) (X : Tx)
    (_hmem : X ∈ ts) (_htop : strTruthy X.parentId = false)
    (_hsub : 0 < X.subItems.length)
    (huniq : ∀ s ∈ X.subItems, ∀ t ∈ ts, t.id ≠ X.id →
      t.id ≠ s.id ∧ ∀ u ∈ t.subItems, u.id ≠ s.id) :
    (∀ t ∈ confirmDeleteTransaction X.id ts, t.id ≠ X.id) ∧
    (∀ s ∈ X.subItems, ∀ t ∈ confirmDeleteTransaction X.id ts,
      t.id ≠ s.id ∧ ∀ u ∈ t.subItems, u.id ≠ s.id) := by
  have hres : ∀ t ∈ confirmDeleteTransaction X.id ts,
      ∃ u ∈ ts, u.id ≠ X.id ∧ t.id = u.id ∧ ∀ v ∈ t.subItems, v ∈ u.subItems := by
    intro t ht
    obtain ⟨u, hu, rfl⟩ := List.mem_map.mp ht
    have hu1 := List.mem_of_mem_filter hu
    have hu2 : u.id ≠ X.id := by
      have := List.of_mem_filter hu
      simpa using this
    exact ⟨u, hu1, hu2, deleteFromSubItems_id X.id u,
      deleteFromSubItems_subItems_mem X.id u⟩
  constructor
  · intro t ht
    obtain ⟨u, -, hu2, hid, -⟩ := hres t ht
    rw [hid]
    exact hu2
  · intro s hs t ht
    obtain ⟨u, hu1, hu2, hid, hsubmem⟩ := hres t ht
    obtain ⟨h1, h2⟩ := huniq s hs u hu1 hu2
    exact ⟨hid ▸ h1, fun v hv => h2 v (hsubmem v hv)⟩

/-- C6 witness: deleting the parent `"p1"` from `demoMix` leaves no trace of
its id nor of its sub-items' ids anywhere in the result. -/
theorem delete_parent_discards_witness :
    (∀ t ∈ confirmDeleteTransaction parentGood.id demoMix, t.id ≠ parentGood.id) ∧
    (∀ s ∈ parentGood.subItems, ∀ t ∈ confirmDeleteTransaction parentGood.id demoMix,
      t.id ≠ s.id ∧ ∀ u ∈ t.subItems, u.id ≠ s.id) :=
  delete_parent_discards_subItems demoMix parentGood
    (by rw [demoMix]; right; right; exact List.mem_singleton_self parentGood)
    rfl (by rw [parentGood]; simp) (by decide)

theorem txCmp_amount_desc (getTime : String → ℚ) (a b : Tx) :
    txCmp getTime "amount-desc" a b = b.amount - a.amount := rfl

theorem txCmp_priority_desc (getTime : String → ℚ) (a b : Tx) :
    txCmp getTime "priority-desc" a b = priorityWeight b - priorityWeight a := rfl

theorem txCmp_neg (getTime : String → ℚ) (key : String) (a b : Tx) :
    txCmp getTime key b a = -txCmp getTime key a b := by
  unfold txCmp
  split_ifs <;> ring

theorem txCmp_total (getTime : String → ℚ) (key : String) (a b : Tx) :
    txCmp getTime key a b ≤ 0 ∨ txCmp getTime key b a ≤ 0 := by
  rcases le_total (txCmp getTime key a b) 0 with h | h
  · exact Or.inl h
  · right
    rw [txCmp_neg]
    linarith

theorem txCmp_trans (getTime : String → ℚ) (key : String) (a b c : Tx) :
    txCmp getTime key a b ≤ 0 → txCmp getTime key b c ≤ 0 →
      txCmp getTime key a c ≤ 0 := by
  unfold txCmp
  split_ifs <;> intro h1 h2 <;> linarith

theorem txCmp_default (getTime : String → ℚ) (key : String)
    (h1 : key ≠ "priority-desc") (h2 : key ≠ "amount-desc")
    (h3 : key ≠ "amount-asc") (h4 : key ≠ "date-asc") (a b : Tx) :
    txCmp getTime key a b = getTime b.date - getTime a.date := by
  unfold txCmp
  rw [if_neg (by simp [h1]), if_neg (by simp [h2]), if_neg (by simp [h3]),
    if_neg (by simp [h4])]

theorem orderedInsert_congr {α : Type} {r s : α → α → Prop}
    [DecidableRel r] [DecidableRel s] (h : ∀ a b, r a b ↔ s a b) (a : α) :
    ∀ l : List α, l.orderedInsert r a = l.orderedInsert s a := by
  intro l
  induction l with
  | nil => rfl
  | cons b l ih =>
    simp only [List.orderedInsert]
    exact if_congr (h a b) rfl (by rw [ih])

theorem insertionSort_congr {α : Type} {r s : α → α → Prop}
    [DecidableRel r] [DecidableRel s] (h : ∀ a b, r a b ↔ s a b) :
    ∀ l : List α, l.insertionSort r = l.insertionSort s := by
  intro l
  induction l with
  | nil => rfl
  | cons b l ih =>
    simp only [List.insertionSort]
    rw [ih, orderedInsert_congr h]

/-- Amounts 50, 200, 75 (scenario E of the spec). -/
def ex50 : Tx :=
  .mk "a1" "A" 50 "2024-05-01T00:00:00.000Z" .EXPENSE "Food" none [] none none

def ex200 : Tx :=
  .mk "a2" "B" 200 "2024-05-02T00:00:00.000Z" .EXPENSE "Food" none [] none none

def ex75 : Tx :=
  .mk "a3" "C" 75 "2024-05-03T00:00:00.000Z" .EXPENSE "Food" none [] none none

def exAmountList : List Tx := [ex50, ex200, ex75]

/-- C4: `sortedParentTransactions` (a) returns a permutation of the
transactions with falsy `parentId` only, (b) each returned element is an
unchanged element of the input (so `subItems` lists are never reordered),
(c) `amount-desc` orders by amount descending, (d) `priority-desc` orders
descending by the HIGH=3/MEDIUM=2/LOW=1 weight with a missing priority
counted as MEDIUM, (e) every key other than the four explicitly listed in
the switch (in particular the default) sorts like `date-desc`, (f) the sort
is stable: a tied pair in input order stays in that order, and (g) on the
concrete amounts [50, 200, 75] the key `amount-desc` yields [200, 75, 50]. -/
theorem sortedParentTransactions_spec (getTime : String → ℚ) (key : String)
    (ts : List Tx) :
    (sortedParentTransactions getTime key ts).Perm
      (ts.filter (fun t => !strTruthy t.parentId)) ∧
    (∀ t ∈ sortedParentTransactions getTime key ts,
      t ∈ ts ∧ strTruthy t.parentId = false) ∧
    (sortedParentTransactions getTime "amount-desc" ts).Pairwise
      (fun a b => b.amount ≤ a.amount) ∧
    (sortedParentTransactions getTime "priority-desc" ts).Pairwise
      (fun a b => priorityWeight b ≤ priorityWeight a) ∧
    ((key ≠ "priority-desc" ∧ key ≠ "amount-desc" ∧ key ≠ "amount-asc" ∧
        key ≠ "date-asc") →
      sortedParentTransactions getTime key ts =
        sortedParentTransactions getTime "date-desc" ts) ∧
    (∀ a b : Tx, txCmp getTime key a b = 0 →
      List.Sublist [a, b] (ts.filter (fun t => !strTruthy t.parentId)) →
      List.Sublist [a, b] (sortedParentTransactions getTime key ts)) ∧
    (sortedParentTransactions (fun _ => 0) "amount-desc" exAmountList).map
      Tx.amount = [200, 75, 50] := by
  refine ⟨?_, ?_, ?_, ?_, ?_, ?_, ?_⟩
  · exact List.perm_insertionSort _ _
  · intro t ht
    have hmem := (List.perm_insertionSort
      (fun a b => txCmp getTime key a b ≤ 0)
      (ts.filter (fun t => !strTruthy t.parentId))).mem_iff.mp ht
    have h1 := List.mem_of_mem_filter hmem
    have h2 := List.of_mem_filter hmem
    exact ⟨h1, by simpa using h2⟩
  · haveI : IsTotal Tx (fun a b => txCmp getTime "amount-desc" a b ≤ 0) :=
      ⟨txCmp_total getTime "amount-desc"⟩
    haveI : IsTrans Tx (fun a b => txCmp getTime "amount-desc" a b ≤ 0) :=
      ⟨txCmp_trans getTime "amount-desc"⟩
    have h := List.sorted_insertionSort
      (fun a b => txCmp getTime "amount-desc" a b ≤ 0)
      (ts.filter (fun t => !strTruthy t.parentId))
    refine List.Pairwise.imp ?_ h
    intro a b hab
    rw [txCmp_amount_desc] at hab
    linarith
  · haveI : IsTotal Tx (fun a b => txCmp getTime "priority-desc" a b ≤ 0) :=
      ⟨txCmp_total getTime "priority-desc"⟩
    haveI : IsTrans Tx (fun a b => txCmp getTime "priority-desc" a b ≤ 0) :=
      ⟨txCmp_trans getTime "priority-desc"⟩
    have h := List.sorted_insertionSort
      (fun a b => txCmp getTime "priority-desc" a b ≤ 0)
      (ts.filter (fun t => !strTruthy t.parentId))
    refine List.Pairwise.imp ?_ h
    intro a b hab
    rw [txCmp_priority_desc] at hab
    linarith
  · rintro ⟨h1, h2, h3, h4⟩
    unfold sortedParentTransactions
    refine insertionSort_congr ?_ _
    intro a b
    rw [txCmp_default getTime key h1 h2 h3 h4]
    rfl
  · intro a b h0 hsub
    exact List.pair_sublist_insertionSort h0.le hsub
  · norm_num [sortedParentTransactions, List.insertionSort, List.orderedInsert,
      txCmp_amount_desc, exAmountList, ex50, ex200, ex75, strTruthy]

/-- C4 witness: the implication parts of `sortedParentTransactions_spec` at
concrete inputs: the unknown key `"foo"` sorts like `"date-desc"`, and a
pair tied under the everywhere-zero date comparator keeps its input order. -/
theorem sortedParentTransactions_spec_witness :
    sortedParentTransactions (fun _ => 0) "foo" exAmountList =
      sortedParentTransactions (fun _ => 0) "date-desc" exAmountList ∧
    List.Sublist [ex50, ex200]
      (sortedParentTransactions (fun _ => 0) "foo" exAmountList) :=
  ⟨(sortedParentTransactions_spec (fun _ => 0) "foo" exAmountList).2.2.2.2.1
      ⟨by decide, by decide, by decide, by decide⟩,
   (sortedParentTransactions_spec (fun _ => 0) "foo" exAmountList).2.2.2.2.2.1
      ex50 ex200
      (by rw [txCmp_default (fun _ => 0) "foo" (by decide) (by decide) (by decide)
            (by decide)]
          norm_num)
      (List.Sublist.cons₂ ex50 (List.Sublist.cons₂ ex200 (List.nil_sublist [ex75])))⟩

theorem foldl_add_amount (l : List Tx) :
    ∀ c : ℚ, l.foldl (fun sum item => sum + item.amount) c
      = c + (l.map Tx.amount).sum := by
  induction l with
  | nil => intro c; simp
  | cons t l ih =>
    intro c
    simp only [List.foldl_cons, List.map_cons, List.sum_cons, ih]
    ring

theorem sumAmounts_eq (l : List Tx) : sumAmounts l = (l.map Tx.amount).sum := by
  rw [sumAmounts, foldl_add_amount, zero_add]

theorem sum_map_filter_split (p : Tx → Bool) (l : List Tx) :
    ((l.filter p).map Tx.amount).sum +
      ((l.filter (fun t => !p t)).map Tx.amount).sum = (l.map Tx.amount).sum := by
  induction l with
  | nil => simp
  | cons t l ih =>
    by_cases h : p t <;> simp [List.filter_cons, h] <;> linarith [ih]

theorem sum_over_buckets {β : Type} [DecidableEq β] (key : Tx → β) :
    ∀ ks : List β, ks.Nodup → ∀ l : List Tx, (∀ t ∈ l, key t ∈ ks) →
      (ks.map (fun k =>
        ((l.filter (fun t => key t == k)).map Tx.amount).sum)).sum
        = (l.map Tx.amount).sum := by
  intro ks
  induction ks with
  | nil =>
    intro _ l hcov
    have hl : l = [] :=
      List.eq_nil_iff_forall_not_mem.mpr
        (fun t ht => absurd (hcov t ht) (List.not_mem_nil _))
    subst hl
    simp
  | cons k ks ih =>
    intro hnd l hcov
    have hknotin : k ∉ ks := (List.nodup_cons.mp hnd).1
    have hnd' : ks.Nodup := (List.nodup_cons.mp hnd).2
    have hcov' : ∀ t ∈ l.filter (fun t => !(key t == k)), key t ∈ ks := by
      intro t ht
      have h1 := List.mem_of_mem_filter ht
      have h2 : key t ≠ k := by simpa using List.of_mem_filter ht
      rcases List.mem_cons.mp (hcov t h1) with h | h
      · exact absurd h h2
      · exact h
    have hterm : ∀ m ∈ ks, l.filter (fun t => key t == m)
        = (l.filter (fun t => !(key t == k))).filter (fun t => key t == m) := by
      intro m hm
      rw [List.filter_filter]
      apply List.filter_congr
      intro t _
      by_cases hm2 : key t = m
      · have hk2 : key t ≠ k := fun hc => hknotin ((hc.symm.trans hm2) ▸ hm)
        have hmk : m ≠ k := fun hc => hknotin (hc ▸ hm)
        simp [hm2, hk2, hmk]
      · simp [hm2]
    have hmap : List.map (fun m =>
          ((l.filter (fun t => key t == m)).map Tx.amount).sum) ks
        = List.map (fun m =>
          (((l.filter (fun t => !(key t == k))).filter
            (fun t => key t == m)).map Tx.amount).sum) ks := by
      apply List.map_congr_left
      intro m hm
      rw [hterm m hm]
    rw [List.map_cons, List.sum_cons, hmap,
      ih hnd' (l.filter (fun t => !(key t == k))) hcov']
    have hsplit := sum_map_filter_split (fun t => key t == k) l
    linarith [hsplit]

theorem observedMonths_nodup (ts : List Tx) : (observedMonths ts).Nodup :=
  (List.perm_insertionSort (fun a b : String => a ≤ b)
    ((chartTopLevel ts).map monthBucket).dedup).symm.nodup
    (List.nodup_dedup _)

theorem monthBucket_mem_observedMonths {ts : List Tx} {t : Tx}
    (ht : t ∈ chartTopLevel ts) : monthBucket t ∈ observedMonths ts :=
  (List.perm_insertionSort (fun a b : String => a ≤ b)
    ((chartTopLevel ts).map monthBucket).dedup).mem_iff.mpr
    (List.mem_dedup.mpr (List.mem_map_of_mem monthBucket ht))

theorem chart_series_sum (ts : List Tx) (q : Tx → Bool) :
    ((observedMonths ts).map (fun m =>
      sumAmounts ((chartTopLevel ts).filter
        (fun t => monthBucket t == m && q t)))).sum
      = (((chartTopLevel ts).filter q).map Tx.amount).sum := by
  have hterm : ∀ m : String, (chartTopLevel ts).filter
      (fun t => monthBucket t == m && q t)
      = ((chartTopLevel ts).filter q).filter (fun t => monthBucket t == m) := by
    intro m
    rw [List.filter_filter]
  have hmap : (observedMonths ts).map (fun m =>
        sumAmounts ((chartTopLevel ts).filter
          (fun t => monthBucket t == m && q t)))
      = (observedMonths ts).map (fun m =>
        ((((chartTopLevel ts).filter q).filter
          (fun t => monthBucket t == m)).map Tx.amount).sum) := by
    apply List.map_congr_left
    intro m _
    rw [hterm m, sumAmounts_eq]
  rw [hmap]
  apply sum_over_buckets monthBucket (observedMonths ts)
    (observedMonths_nodup ts) ((chartTopLevel ts).filter q)
  intro t ht
  exact monthBucket_mem_observedMonths (List.mem_of_mem_filter ht)

/-- C9 (spec-modelled): the income-vs-expense series conserves totals: the
sum of the `Receita` fields over all emitted month rows equals the sum of
`amount` over all top-level (falsy `parentId`) transactions of type INCOME,
and the sum of the `Despesa` fields equals the corresponding EXPENSE sum. -/
theorem incomeVsExpense_conservation (label : String → String) (ts : List Tx) :
    ((incomeVsExpenseData label ts).map ChartRow.Receita).sum =
      (((chartTopLevel ts).filter
        (fun t => t.type == TxType.INCOME)).map Tx.amount).sum ∧
    ((incomeVsExpenseData label ts).map ChartRow.Despesa).sum =
      (((chartTopLevel ts).filter
        (fun t => t.type == TxType.EXPENSE)).map Tx.amount).sum := by
  constructor
  · rw [incomeVsExpenseData, List.map_map]
    exact chart_series_sum ts (fun t => t.type == TxType.INCOME)
  · rw [incomeVsExpenseData, List.map_map]
    exact chart_series_sum ts (fun t => t.type == TxType.EXPENSE)
